import Mathlib

/-!
Verification of the python-jacketclient repository (HybridF5/python-jacketclient).

The development shallowly embeds, in Lean 4:
  * the `v1` resource-mapper managers (`jacketclient/v1/flavor_mapper.py`,
    `instance_mapper.py`, `image_mapper.py`, `project_mapper.py`), including a
    faithful model of Python call-time argument binding, since the image and
    project managers declare `_build_body` as a `@staticmethod` whose first
    parameter is `self`;
  * the HTTP transport / session / catalog core described by `spec.md`
    (`jacketclient/client.py`, `jacketclient/service_catalog.py`), whose source
    is not part of the provided tree; those definitions are modelled from the
    specification text and are marked as such in their doc comments.
-/

/-! ## Python values and errors used by the mapper managers -/

/-- A Python runtime value as used by the mapper managers: the ids and extra
keyword values are either `None` or strings. -/
inductive PyVal where
  | none : PyVal
  | str : String → PyVal
deriving DecidableEq

/-- Python truthiness for the values above (`None` and `""` are falsy). -/
def PyVal.truthy : PyVal → Bool
  | .none => false
  | .str s => !s.isEmpty

/-- Exceptions that the mapper-manager call path can raise before any HTTP
request is issued. `commandError` embeds `jacketclient.exceptions.CommandError`;
the `typeError*` constructors embed Python's call-time `TypeError`s. -/
inductive PyError where
  | commandError (msg : String)
  | typeErrorMissingArg (fn : String) (param : String)
  | typeErrorTooManyArgs (fn : String)
  | typeErrorMultipleValues (fn : String)
deriving DecidableEq

/-- A parameter of a Python function: its name and, when present, its
default value. -/
structure PyParam where
  name : String
  default : Option PyVal
deriving DecidableEq

/-- Python call-time argument binding for a function whose signature is
`params` followed by `**kwargs`.  Positional arguments fill parameters in
order; keyword arguments fill the rest by name; a keyword that collides with a
positionally filled parameter raises `TypeError` (multiple values); an unfilled
parameter without a default raises `TypeError` (missing argument); keywords
matching no parameter land in the `**kwargs` dictionary.  Returns the bound
environment and the `**kwargs` dictionary. -/
def bindArgs (fn : String) (params : List PyParam) (pos : List PyVal)
    (kw : List (String × PyVal)) :
    Except PyError (List (String × PyVal) × List (String × PyVal)) :=
  if params.length < pos.length then
    .error (.typeErrorTooManyArgs fn)
  else if (params.take pos.length).any (fun p => kw.any (fun q => q.1 == p.name)) then
    .error (.typeErrorMultipleValues fn)
  else do
    let bound := List.zip (params.map (·.name)) pos
    let restBound ← (params.drop pos.length).mapM (fun p =>
      match kw.lookup p.name with
      | some v => Except.ok (p.name, v)
      | Option.none =>
        match p.default with
        | some d => Except.ok (p.name, d)
        | Option.none => Except.error (.typeErrorMissingArg fn p.name))
    let extra := kw.filter (fun q => !(params.any (fun p => p.name == q.1)))
    .ok (bound ++ restBound, extra)

/-- Look a name up in a bound environment (defaulting to `None`; binding has
already guaranteed every parameter is present). -/
def envGet (env : List (String × PyVal)) (k : String) : PyVal :=
  (env.lookup k).getD .none

/-- A request body built by a manager: the wrapper key and the inner
dictionary, e.g. `{'flavor_mapper': {...}}`. -/
structure MapperBody where
  wrapper : String
  fields : List (String × PyVal)
deriving DecidableEq

/-- An HTTP request a manager hands to the session layer on success: the path
and the JSON body.  A manager call that raises never reaches this point, so a
`.error` result means no network request was issued and client state is
unchanged. -/
structure ManagerRequest where
  path : String
  body : MapperBody
deriving DecidableEq

/-! ## FlavorMapperManager (`jacketclient/v1/flavor_mapper.py`) -/

/-- Parameters of `FlavorMapperManager._build_body` — a `@staticmethod` whose
signature is `(flavor_id, dest_flavor_id, project_id=None, **kwargs)`. -/
def flavorBuildBodyParams : List PyParam :=
  [⟨"flavor_id", Option.none⟩, ⟨"dest_flavor_id", Option.none⟩,
   ⟨"project_id", some PyVal.none⟩]

/-- Body of `FlavorMapperManager._build_body` once arguments are bound:
validates the ids, then assembles the `flavor_mapper` dictionary (truthy
`project_id` and truthy extra keywords are included). -/
def flavorBuildBodyCore (env extra : List (String × PyVal)) :
    Except PyError MapperBody :=
  let flavor_id := envGet env "flavor_id"
  let dest_flavor_id := envGet env "dest_flavor_id"
  let project_id := envGet env "project_id"
  if flavor_id = PyVal.none then
    .error (.commandError "flavor id must be specified.")
  else if dest_flavor_id = PyVal.none then
    .error (.commandError "dest flavor id must be specified.")
  else
    let m := [("flavor_id", flavor_id), ("dest_flavor_id", dest_flavor_id)]
    let m := if project_id.truthy then m ++ [("project_id", project_id)] else m
    let m := m ++ extra.filter (fun kv => kv.2.truthy)
    .ok ⟨"flavor_mapper", m⟩

/-- `FlavorMapperManager._build_body` as called: bind, then run the body. -/
def FlavorMapperManager.buildBody (pos : List PyVal)
    (kw : List (String × PyVal)) : Except PyError MapperBody := do
  let (env, extra) ← bindArgs "_build_body" flavorBuildBodyParams pos kw
  flavorBuildBodyCore env extra

/-- `FlavorMapperManager.create`: calls
`self._build_body(flavor_id, dest_flavor_id, project_id=project_id, **kwargs)`
and only then issues `self._create("/flavor_mapper", body, ...)`. -/
def FlavorMapperManager.create (flavor_id dest_flavor_id project_id : PyVal)
    (kwargs : List (String × PyVal)) : Except PyError ManagerRequest := do
  let body ← FlavorMapperManager.buildBody [flavor_id, dest_flavor_id]
    (("project_id", project_id) :: kwargs)
  .ok ⟨"/flavor_mapper", body⟩

/-- `FlavorMapperManager.update`: builds the body the same way, removes
`flavor_id` from the inner dictionary, then issues
`self._update("/flavor_mapper/%s" % flavor_id, body, ...)`. -/
def FlavorMapperManager.update (flavor_id dest_flavor_id project_id : PyVal)
    (kwargs : List (String × PyVal)) : Except PyError ManagerRequest := do
  let body ← FlavorMapperManager.buildBody [flavor_id, dest_flavor_id]
    (("project_id", project_id) :: kwargs)
  let fields := body.fields.filter (fun kv => kv.1 ≠ "flavor_id")
  let idStr := match flavor_id with | .none => "None" | .str s => s
  .ok ⟨"/flavor_mapper/" ++ idStr, ⟨body.wrapper, fields⟩⟩

/-! ## InstanceMapperManager (`jacketclient/v1/instance_mapper.py`) -/

/-- Parameters of `InstanceMapperManager._build_body` — a `@staticmethod` with
signature `(instance_id, dest_instance_id, project_id=None, **kwargs)`. -/
def instanceBuildBodyParams : List PyParam :=
  [⟨"instance_id", Option.none⟩, ⟨"dest_instance_id", Option.none⟩,
   ⟨"project_id", some PyVal.none⟩]

/-- Body of `InstanceMapperManager._build_body`: only `instance_id` is
validated there (`dest_instance_id` is included when truthy). -/
def instanceBuildBodyCore (env extra : List (String × PyVal)) :
    Except PyError MapperBody :=
  let instance_id := envGet env "instance_id"
  let dest_instance_id := envGet env "dest_instance_id"
  let project_id := envGet env "project_id"
  if instance_id = PyVal.none then
    .error (.commandError "instance id must be specified.")
  else
    let m := [("instance_id", instance_id)]
    let m := if dest_instance_id.truthy then
        m ++ [("dest_instance_id", dest_instance_id)] else m
    let m := if project_id.truthy then m ++ [("project_id", project_id)] else m
    let m := m ++ extra.filter (fun kv => kv.2.truthy)
    .ok ⟨"instance_mapper", m⟩

/-- `InstanceMapperManager._build_body` as called. -/
def InstanceMapperManager.buildBody (pos : List PyVal)
    (kw : List (String × PyVal)) : Except PyError MapperBody := do
  let (env, extra) ← bindArgs "_build_body" instanceBuildBodyParams pos kw
  instanceBuildBodyCore env extra

/-- `InstanceMapperManager.create`: validates `dest_instance_id` itself, then
calls `_build_body`, then issues `self._create("/instance_mapper", ...)`. -/
def InstanceMapperManager.create (instance_id dest_instance_id project_id : PyVal)
    (kwargs : List (String × PyVal)) : Except PyError ManagerRequest := do
  if dest_instance_id = PyVal.none then
    .error (.commandError "dest instance id must be specified.")
  else do
    let body ← InstanceMapperManager.buildBody [instance_id, dest_instance_id]
      (("project_id", project_id) :: kwargs)
    .ok ⟨"/instance_mapper", body⟩

/-! ## ImageMapperManager (`jacketclient/v1/image_mapper.py`) -/

/-- Parameters of `ImageMapperManager._build_body` exactly as declared in the
source: a `@staticmethod` whose parameter list nevertheless begins with
`self` — `(self, image_id, dest_image_id, project_id=None, **kwargs)`.
Because `@staticmethod` suppresses instance binding, `self` here is an
ordinary first positional parameter. -/
def imageBuildBodyParams : List PyParam :=
  [⟨"self", Option.none⟩, ⟨"image_id", Option.none⟩,
   ⟨"dest_image_id", Option.none⟩, ⟨"project_id", some PyVal.none⟩]

/-- Body of `ImageMapperManager._build_body` (runs only if binding
succeeded): validates `image_id` and `dest_image_id`, then assembles the
`image_mapper` dictionary. -/
def imageBuildBodyCore (env extra : List (String × PyVal)) :
    Except PyError MapperBody :=
  let image_id := envGet env "image_id"
  let dest_image_id := envGet env "dest_image_id"
  let project_id := envGet env "project_id"
  if image_id = PyVal.none then
    .error (.commandError "image id must be specified.")
  else if dest_image_id = PyVal.none then
    .error (.commandError "dest image id must be specified.")
  else
    let m := [("image_id", image_id), ("dest_image_id", dest_image_id)]
    let m := if project_id.truthy then m ++ [("project_id", project_id)] else m
    let m := m ++ extra.filter (fun kv => kv.2.truthy)
    .ok ⟨"image_mapper", m⟩

/-- `ImageMapperManager._build_body` as called. -/
def ImageMapperManager.buildBody (pos : List PyVal)
    (kw : List (String × PyVal)) : Except PyError MapperBody := do
  let (env, extra) ← bindArgs "_build_body" imageBuildBodyParams pos kw
  imageBuildBodyCore env extra

/-- `ImageMapperManager.create`: calls
`self._build_body(image_id, dest_image_id, project_id=project_id, **kwargs)` —
two positional arguments only, which the mis-declared `self` parameter shifts. -/
def ImageMapperManager.create (image_id dest_image_id project_id : PyVal)
    (kwargs : List (String × PyVal)) : Except PyError ManagerRequest := do
  let body ← ImageMapperManager.buildBody [image_id, dest_image_id]
    (("project_id", project_id) :: kwargs)
  .ok ⟨"/image_mapper", body⟩

/-- `ImageMapperManager.update`: same call shape as `create`; on success it
issues `self._update("/image_mapper", body, ...)`. -/
def ImageMapperManager.update (image_id dest_image_id project_id : PyVal)
    (kwargs : List (String × PyVal)) : Except PyError ManagerRequest := do
  let body ← ImageMapperManager.buildBody [image_id, dest_image_id]
    (("project_id", project_id) :: kwargs)
  .ok ⟨"/image_mapper", body⟩

/-! ## ProjectMapperManager (`jacketclient/v1/project_mapper.py`) -/

/-- Parameters of `ProjectMapperManager._build_body` exactly as declared: a
`@staticmethod` with parameter list `(self, project_id, dest_project_id,
**kwargs)` — again `self` is an ordinary first positional parameter. -/
def projectBuildBodyParams : List PyParam :=
  [⟨"self", Option.none⟩, ⟨"project_id", Option.none⟩,
   ⟨"dest_project_id", Option.none⟩]

/-- Body of `ProjectMapperManager._build_body`. -/
def projectBuildBodyCore (env extra : List (String × PyVal)) :
    Except PyError MapperBody :=
  let project_id := envGet env "project_id"
  let dest_project_id := envGet env "dest_project_id"
  if project_id = PyVal.none then
    .error (.commandError "project id must be specified.")
  else if dest_project_id = PyVal.none then
    .error (.commandError "dest project id must be specified.")
  else
    let m := [("project_id", project_id), ("dest_project_id", dest_project_id)]
    let m := m ++ extra.filter (fun kv => kv.2.truthy)
    .ok ⟨"project_mapper", m⟩

/-- `ProjectMapperManager._build_body` as called. -/
def ProjectMapperManager.buildBody (pos : List PyVal)
    (kw : List (String × PyVal)) : Except PyError MapperBody := do
  let (env, extra) ← bindArgs "_build_body" projectBuildBodyParams pos kw
  projectBuildBodyCore env extra

/-- `ProjectMapperManager.create`: calls
`self._build_body(project_id, dest_project_id, **kwargs)` — two positional
arguments only. -/
def ProjectMapperManager.create (project_id dest_project_id : PyVal)
    (kwargs : List (String × PyVal)) : Except PyError ManagerRequest := do
  let body ← ProjectMapperManager.buildBody [project_id, dest_project_id] kwargs
  .ok ⟨"/project_mapper", body⟩

/-- `ProjectMapperManager.update`: same call shape as `create`. -/
def ProjectMapperManager.update (project_id dest_project_id : PyVal)
    (kwargs : List (String × PyVal)) : Except PyError ManagerRequest := do
  let body ← ProjectMapperManager.buildBody [project_id, dest_project_id] kwargs
  .ok ⟨"/project_mapper", body⟩

/-! ## Service Catalog Resolver

Modelled from the spec: `jacketclient/service_catalog.py` is not part of the
provided source tree (only `tests/unit/test_service_catalog.py` is), so the
resolver below follows spec.md section 4.2 word for word. -/

/-- Modelled from the spec: an Endpoint is a schema-free mapping of attribute
name to value (region, tenantId, versionId, publicURL, ...). -/
structure Endpoint where
  attrs : List (String × String)
deriving DecidableEq

/-- Modelled from the spec: a Service record has a type, a name and a
collection of endpoints. -/
structure Service where
  type : String
  name : String
  endpoints : List Endpoint
deriving DecidableEq

/-- Modelled from the spec: a ServiceCatalog is an ordered collection of
Service records. -/
structure ServiceCatalog where
  services : List Service
deriving DecidableEq

/-- Errors raised by endpoint resolution (`jacketclient.exceptions`):
`EndpointNotFound` when zero endpoints match, `AmbiguousEndpoints` (carrying
the candidate list) when more than one matches. -/
inductive CatalogError where
  | endpointNotFound
  | ambiguousEndpoints (candidates : List Endpoint)
deriving DecidableEq

/-- ASCII lowercasing of a character, as Python's `str.lower` acts on the
ASCII identifiers and attribute values handled here. -/
def lowerChar (c : Char) : Char :=
  if 65 ≤ c.toNat ∧ c.toNat ≤ 90 then Char.ofNat (c.toNat + 32) else c

/-- ASCII lowercasing of a string (Python `str.lower` on ASCII data). -/
def pyLower (s : String) : String := String.mk (s.data.map lowerChar)

/-- Case-insensitive attribute lookup on an endpoint's key/value bag
(spec 4.2: "case-insensitive on both key lookup and string value
comparison"). -/
def ciLookup (attrs : List (String × String)) (key : String) : Option String :=
  (attrs.find? (fun kv => pyLower kv.1 == pyLower key)).map (·.2)

/-- Modelled from the spec (4.2 step 2): an endpoint survives filtering when
it carries the requested `endpoint_type` attribute and, if a
`filter_key`/`filter_value` pair was given, its `filter_key` attribute equals
`filter_value` case-insensitively. -/
def endpointMatches (ep : Endpoint) (endpoint_type : String)
    (filt : Option (String × String)) : Bool :=
  (ciLookup ep.attrs endpoint_type).isSome &&
    (match filt with
     | Option.none => true
     | some (k, v) =>
       match ciLookup ep.attrs k with
       | some w => pyLower w == pyLower v
       | Option.none => false)

/-- Modelled from the spec (4.2 steps 1 and 2): select the services matching
`service_type` (and `service_name` when given), then filter their endpoints. -/
def matchingEndpoints (sc : ServiceCatalog) (service_type : String)
    (service_name : Option String) (endpoint_type : String)
    (filt : Option (String × String)) : List Endpoint :=
  ((sc.services.filter (fun s =>
      s.type == service_type &&
        (match service_name with
         | Option.none => true
         | some n => s.name == n))).flatMap (·.endpoints)).filter
    (fun ep => endpointMatches ep endpoint_type filt)

/-- Modelled from the spec (4.2 steps 3 to 5): `url_for` returns the URL of
the unique matching endpoint, fails with `EndpointNotFound` when no endpoint
matches, and fails with `AmbiguousEndpoints` carrying the candidates when more
than one matches. -/
def ServiceCatalog.urlFor (sc : ServiceCatalog) (filt : Option (String × String))
    (service_type : String) (service_name : Option String)
    (endpoint_type : String) : Except CatalogError String :=
  match matchingEndpoints sc service_type service_name endpoint_type filt with
  | [] => .error .endpointNotFound
  | [ep] => .ok ((ciLookup ep.attrs endpoint_type).getD "")
  | eps => .error (.ambiguousEndpoints eps)

/-- The volume service of the catalog built in
`tests/unit/test_service_catalog.py`: two endpoints whose `region` attribute
is `South`, differing in `tenantId` and URL. -/
def volumeEndpoint1 : Endpoint :=
  ⟨[("publicURL", "https://volume1.host/v1/1"), ("region", "South"),
    ("tenantId", "1")]⟩

/-- Second volume endpoint of the test catalog. -/
def volumeEndpoint2 : Endpoint :=
  ⟨[("publicURL", "https://volume1.host/v1.1/2"), ("region", "South"),
    ("tenantId", "2")]⟩

/-- The test catalog's volume service wrapped as a one-service catalog. -/
def volumeCatalog : ServiceCatalog :=
  ⟨[⟨"volume", "volume", [volumeEndpoint1, volumeEndpoint2]⟩]⟩

/-! ## HTTP Transport Client: re-authentication flow

Modelled from the spec: `jacketclient/client.py` is not part of the provided
source tree (only `tests/unit/test_client.py` is).  The definitions below
follow spec.md sections 4.3 and 4.4 for the 401 handling of
`HTTPClient._cs_request` and for `HTTPClient.authenticate`. -/

/-- The observable network calls the transport client can issue: an API
request carrying the current token, or the re-authentication POST of the
password credentials to `<auth_url>/tokens`. -/
inductive HttpCall where
  | apiRequest (method url token : String)
  | authPost (url user password tenant : String)
deriving DecidableEq

/-- Errors surfaced by the transport/auth layers for the flows modelled here:
`unauthorized` (HTTP 401 after the retry is exhausted, or rejection during
auth) and `authorizationFailure` (the auth POST itself failed). -/
inductive TransportError where
  | unauthorized
  | authorizationFailure (status : Nat)
deriving DecidableEq

/-- A scripted server response: the HTTP status and, for auth responses, the
token and management URL the identity service would return. -/
structure ScriptedResponse where
  status : Nat
  token : String
  mgmtUrl : String
deriving DecidableEq

/-- Session state of the transport client that the re-auth flow reads and
writes (spec section 3, "Session state"). -/
structure SessionState where
  user : String
  password : String
  projectid : String
  auth_url : String
  auth_token : String
  management_url : String
deriving DecidableEq

/-- Modelled from the spec (4.4): `authenticate()` POSTs the password
credentials to `<auth_url>/tokens`; on 200/203 it stores the returned token
and management URL, on any other status it fails (`Unauthorized` for a 401
credential rejection, `AuthorizationFailure` otherwise).  Returns the issued
call together with the outcome. -/
def authenticate (c : SessionState) (r : ScriptedResponse) :
    HttpCall × Except TransportError SessionState :=
  (HttpCall.authPost (c.auth_url ++ "/tokens") c.user c.password c.projectid,
   if r.status = 200 ∨ r.status = 203 then
     .ok { c with auth_token := r.token, management_url := r.mgmtUrl }
   else if r.status = 401 then .error .unauthorized
   else .error (.authorizationFailure r.status))

/-- Modelled from the spec (4.3): one `_cs_request` round.  The original
request is attempted with the current token; on a 401, if this is not already
a retry, the client re-authenticates and retries the original request exactly
once with the refreshed token; a 401 on the retry surfaces as `Unauthorized`.
`r1`, `r2`, `r3` script the server's successive responses (first attempt,
auth POST, retry).  Returns the trace of issued calls and the outcome. -/
def csRequest (c : SessionState) (method url : String)
    (r1 r2 r3 : ScriptedResponse) :
    List HttpCall × Except TransportError (SessionState × Nat) :=
  let call1 := HttpCall.apiRequest method url c.auth_token
  if r1.status = 401 then
    let (call2, auth) := authenticate c r2
    match auth with
    | .error e => ([call1, call2], .error e)
    | .ok c' =>
      let call3 := HttpCall.apiRequest method url c'.auth_token
      if r3.status = 401 then ([call1, call2, call3], .error .unauthorized)
      else ([call1, call2, call3], .ok (c', r3.status))
  else ([call1], .ok (c, r1.status))

/-- Recognizer for re-authentication POSTs in a call trace. -/
def HttpCall.isAuthPost : HttpCall → Bool
  | .authPost _ _ _ _ => true
  | _ => false

/-- Recognizer for API requests in a call trace. -/
def HttpCall.isApiRequest : HttpCall → Bool
  | .apiRequest _ _ _ => true
  | _ => false

/-! ## SHA1 and request logging with credential redaction

Modelled from the spec (4.3, "Logging with redaction"): the logging code of
`jacketclient/client.py` is not in the provided tree.  The redaction replaces
secrets by `{SHA1}<hex digest of the secret>`; SHA1 is embedded below from its
standard definition (FIPS 180-1), operating on byte lists with `Nat`
arithmetic modulo 2^32. -/

/-- Truncate to a 32-bit word. -/
def w32 (n : Nat) : Nat := n % 4294967296

/-- Left rotation of a 32-bit word by `k` bits. -/
def rotl (k x : Nat) : Nat := w32 ((x <<< k) ||| (x >>> (32 - k)))

/-- The eight big-endian bytes of a 64-bit length field. -/
def beBytes8 (n : Nat) : List Nat :=
  [(n >>> 56) % 256, (n >>> 48) % 256, (n >>> 40) % 256, (n >>> 32) % 256,
   (n >>> 24) % 256, (n >>> 16) % 256, (n >>> 8) % 256, n % 256]

/-- SHA1 message padding: append `0x80`, zero bytes up to 56 mod 64, then the
message bit length as eight big-endian bytes. -/
def sha1Pad (msg : List Nat) : List Nat :=
  let padZeros := (64 + 55 - (msg.length % 64)) % 64
  msg ++ 128 :: List.replicate padZeros 0 ++ beBytes8 (msg.length * 8)

/-- Pack bytes into big-endian 32-bit words. -/
def beWords : List Nat → List Nat
  | a :: b :: c :: d :: rest =>
    (((a * 256 + b) * 256 + c) * 256 + d) :: beWords rest
  | _ => []

/-- Expand the sixteen words of a block to the eighty SHA1 schedule words. -/
def sha1Expand (ws : List Nat) : Array Nat :=
  (List.range 64).foldl
    (fun a _ =>
      let i := a.size
      a.push (rotl 1 ((a.getD (i - 3) 0) ^^^ (a.getD (i - 8) 0) ^^^
        (a.getD (i - 14) 0) ^^^ (a.getD (i - 16) 0))))
    ws.toArray

/-- The SHA1 round function for round `i`. -/
def sha1F (i b c d : Nat) : Nat :=
  if i < 20 then (b &&& c) ||| ((b ^^^ 4294967295) &&& d)
  else if i < 40 then b ^^^ c ^^^ d
  else if i < 60 then (b &&& c) ||| (b &&& d) ||| (c &&& d)
  else b ^^^ c ^^^ d

/-- The SHA1 round constant for round `i`. -/
def sha1K (i : Nat) : Nat :=
  if i < 20 then 1518500249
  else if i < 40 then 1859775393
  else if i < 60 then 2400959708
  else 3395469782

/-- One SHA1 round: update the five-word state with schedule word `wi`. -/
def sha1Round (st : Nat × Nat × Nat × Nat × Nat) (iw : Nat × Nat) :
    Nat × Nat × Nat × Nat × Nat :=
  let (a, b, c, d, e) := st
  let (i, wi) := iw
  let t := w32 (rotl 5 a + sha1F i b c d + e + sha1K i + wi)
  (t, a, rotl 30 b, c, d)

/-- Process one 64-byte block. -/
def sha1Block (h : Nat × Nat × Nat × Nat × Nat) (block : List Nat) :
    Nat × Nat × Nat × Nat × Nat :=
  let ws := sha1Expand (beWords block)
  let (a, b, c, d, e) :=
    (List.zip (List.range 80) ws.toList).foldl sha1Round h
  let (h0, h1, h2, h3, h4) := h
  (w32 (h0 + a), w32 (h1 + b), w32 (h2 + c), w32 (h3 + d), w32 (h4 + e))

/-- Split a byte list into 64-byte chunks (`cur` accumulates the bytes of the
current chunk in reverse). -/
def chunksAux (cur : List Nat) : List Nat → List (List Nat)
  | [] => if cur.isEmpty then [] else [cur.reverse]
  | b :: bs =>
    if cur.length = 63 then (b :: cur).reverse :: chunksAux [] bs
    else chunksAux (b :: cur) bs

/-- Split a byte list into 64-byte chunks. -/
def chunks64 (l : List Nat) : List (List Nat) := chunksAux [] l

/-- The five 32-bit words of the SHA1 digest of a byte list. -/
def sha1Words (msg : List Nat) : List Nat :=
  let st := (chunks64 (sha1Pad msg)).foldl sha1Block
    (1732584193, 4023233417, 2562383102, 271733878, 3285377520)
  let (h0, h1, h2, h3, h4) := st
  [h0, h1, h2, h3, h4]

/-- A lowercase hexadecimal digit. -/
def hexDigit (n : Nat) : Char :=
  if n < 10 then Char.ofNat (48 + n) else Char.ofNat (87 + n)

/-- Eight lowercase hex digits of a 32-bit word, most significant first. -/
def wordHex (w : Nat) : List Char :=
  [hexDigit ((w >>> 28) % 16), hexDigit ((w >>> 24) % 16),
   hexDigit ((w >>> 20) % 16), hexDigit ((w >>> 16) % 16),
   hexDigit ((w >>> 12) % 16), hexDigit ((w >>> 8) % 16),
   hexDigit ((w >>> 4) % 16), hexDigit (w % 16)]

/-- The SHA1 digest of a byte list as a 40-character lowercase hex string,
as produced by Python's `hashlib.sha1(...).hexdigest()`. -/
def sha1Hex (msg : List Nat) : String :=
  String.mk ((sha1Words msg).flatMap wordHex)

/-- The UTF-8 bytes of an ASCII string (models `value.encode('utf-8')`;
every input redacted in this development is ASCII). -/
def utf8Bytes (s : String) : List Nat := s.toList.map Char.toNat

mutual

/-- A JSON value as it appears in auth request bodies (strings and objects
suffice for the flows modelled here); object fields are a mutually inductive
list so that rendering is structurally recursive. -/
inductive Jsonish where
  | str (s : String)
  | obj (fields : JsonFields)

/-- The field list of a JSON object. -/
inductive JsonFields where
  | nil
  | cons (key : String) (value : Jsonish) (rest : JsonFields)

end

mutual

/-- Render a JSON value the way Python's `json.dumps` does
(separators `", "` and `": "`). -/
def renderJson : Jsonish → String
  | .str s => "\"" ++ s ++ "\""
  | .obj fs => "\x7b" ++ renderFields fs ++ "\x7d"

/-- Render a JSON object's field list the way Python's `json.dumps` does. -/
def renderFields : JsonFields → String
  | .nil => ""
  | .cons k v .nil => "\"" ++ k ++ "\": " ++ renderJson v
  | .cons k v rest => "\"" ++ k ++ "\": " ++ renderJson v ++ ", " ++ renderFields rest

end

/-- Apply `f` to the value stored under `key` in a field list. -/
def mapKey (fs : JsonFields) (key : String) (f : Jsonish → Jsonish) : JsonFields :=
  match fs with
  | .nil => .nil
  | .cons k v rest =>
    if k = key then .cons k (f v) (mapKey rest key f)
    else .cons k v (mapKey rest key f)

/-- Replace a string value by its `{SHA1}<digest>` redaction. -/
def hashStrVal : Jsonish → Jsonish
  | .str s => .str ("{SHA1}" ++ sha1Hex (utf8Bytes s))
  | j => j

/-- Modelled from the spec (4.3): redact the password found under the JSON
path `auth.passwordCredentials.password` of a request body, replacing it by
the digest `{SHA1}<hex digest>`. -/
def redactPassword : Jsonish → Jsonish
  | .obj fs =>
    .obj (mapKey fs "auth" (fun j1 =>
      match j1 with
      | .obj fs1 =>
        .obj (mapKey fs1 "passwordCredentials" (fun j2 =>
          match j2 with
          | .obj fs2 => .obj (mapKey fs2 "password" hashStrVal)
          | j2 => j2))
      | j1 => j1))
  | j => j

/-- Modelled from the spec (4.3): the logged value of a header.  A header
whose name case-insensitively matches `X-Auth-Token` has its value replaced by
`{SHA1}<hex digest>`; a `None` value carries no secret and is logged verbatim
as the text `None` (Python string formatting of `None`). -/
def redactHeaderValue (name : String) (value : Option String) : String :=
  if pyLower name = "x-auth-token" then
    match value with
    | some v => "{SHA1}" ++ sha1Hex (utf8Bytes v)
    | Option.none => "None"
  else
    match value with
    | some v => v
    | Option.none => "None"

/-- Modelled from the spec (4.3): `http_log_req` formats the request as an
equivalent curl invocation — method, URL, redacted headers, redacted body —
and emits it only when debug logging is enabled (`Option.none` models "nothing
logged"). -/
def httpLogReq (http_log_debug : Bool) (method url : String)
    (headers : List (String × Option String)) (data : Option Jsonish) :
    Option String :=
  if !http_log_debug then Option.none
  else
    let hdr := headers.map (fun kv =>
      " -H \"" ++ kv.1 ++ ": " ++ redactHeaderValue kv.1 kv.2 ++ "\"")
    let dataPart :=
      match data with
      | some j => " -d '" ++ renderJson (redactPassword j) ++ "'"
      | Option.none => ""
    some ("REQ: curl -g -i '" ++ url ++ "' -X " ++ method ++
      String.join hdr ++ dataPart)

/-! ## Version-URL stripping and the session facade's URL construction

Modelled from the spec (sections 4.5 and 6, "Version discovery"): with an
empty/falsy path the client requests the root of the management URL, obtained
by stripping a `/v<digits>[.<digits>]/<project-id>` suffix; with a non-empty
path it appends the path to the management URL. -/

/-- Split a character list at `'/'` separators (never returns `[]`). -/
def splitSlash : List Char → List (List Char)
  | [] => [[]]
  | c :: cs =>
    match splitSlash cs with
    | [] => [[c]]
    | s :: ss => if c = '/' then [] :: s :: ss else (c :: s) :: ss

/-- Join segments with `'/'` separators (inverse of `splitSlash` for
slash-free segments). -/
def joinSlash : List (List Char) → List Char
  | [] => []
  | [s] => s
  | s :: ss => s ++ '/' :: joinSlash ss

/-- Does a path segment have the shape `v<digits>` or `v<digits>.<digits>`
(the version segment of a management URL)? -/
def isVersionSeg : List Char → Bool
  | 'v' :: rest =>
    let ip := rest.takeWhile (·.isDigit)
    let fr := rest.dropWhile (·.isDigit)
    !ip.isEmpty &&
      (fr.isEmpty ||
        (match fr with
         | '.' :: ds => !ds.isEmpty && ds.all (·.isDigit)
         | _ => false))
  | _ => false

/-- Modelled from the spec (section 6): when the management URL ends in
`.../v<digits>[.<digits>]/<project-id>`, reduce it to the prefix before the
version segment (with its trailing slash); otherwise leave it unchanged. -/
def stripVersionChars (url : List Char) : List Char :=
  match (splitSlash url).reverse with
  | _pid :: v :: rest =>
    if isVersionSeg v then joinSlash rest.reverse ++ ['/'] else url
  | _ => url

/-- String-level version-URL stripping. -/
def stripVersionUrl (s : String) : String := String.mk (stripVersionChars s.data)

/-- Python `rstrip('/')`: drop every trailing slash. -/
def rstripSlash (s : String) : String := String.mk (s.data.reverse.dropWhile (· = '/') |>.reverse)

/-- The configuration and session state of `jacketclient.client.HTTPClient`
that the modelled flows read (modelled from the spec, sections 3, 4.4, 4.5). -/
structure HTTPClient where
  user : Option String
  password : Option String
  projectid : Option String
  auth_url : Option String
  auth_token : Option String
  bypass_url : Option String
  management_url : Option String
  service_catalog : Option ServiceCatalog
  service_type : String
  timings : Bool
  times : List (String × Nat)
deriving DecidableEq

/-- Modelled from the spec (4.4 and section 8): `HTTPClient.__init__`.  A
trailing slash is stripped from `auth_url` and from `bypass_url` at
construction; the management URL starts as the (stripped) bypass URL when one
was supplied and is otherwise absent until authentication; no catalog exists
and no network call is made. -/
def mkHTTPClient (user password projectid auth_url auth_token bypass_url :
    Option String) (service_type : String) (timings : Bool) : HTTPClient :=
  { user := user
  , password := password
  , projectid := projectid
  , auth_url := auth_url.map rstripSlash
  , auth_token := auth_token
  , bypass_url := bypass_url.map rstripSlash
  , management_url := bypass_url.map rstripSlash
  , service_catalog := Option.none
  , service_type := service_type
  , timings := timings
  , times := [] }

/-- `get_service_url`: resolve the service URL through the catalog
(spec 4.4; errors of the resolution are not needed by the claims settled
here, an unresolvable catalog yields `""`). -/
def HTTPClient.getServiceUrl (c : HTTPClient) : String :=
  match c.service_catalog with
  | some sc =>
    match sc.urlFor Option.none c.service_type Option.none "publicURL" with
    | .ok u => u
    | .error _ => ""
  | Option.none => ""

/-- How the session facade built a request URL: whether it had to
authenticate first, whether the service-catalog lookup was consulted, and the
resulting URL. -/
inductive CsUrl where
  | needsAuthFirst
  | url (catalogConsulted : Bool) (u : String)
deriving DecidableEq

/-- Modelled from the spec (4.5, section 6, and
`tests/unit/test_client.py`): the URL built by `_cs_request` for a verb call.
If not yet authenticated (no management URL), `authenticate()` runs first.
With a falsy (absent or empty) path the version-discovery root — the
management URL with its version suffix stripped — is requested and the
catalog is not consulted.  Otherwise the path is appended: to the
catalog-resolved service URL when a catalog is present and no bypass URL is
configured, else directly to the management URL. -/
def HTTPClient.csUrl (c : HTTPClient) (path : Option String) : CsUrl :=
  match c.management_url with
  | Option.none => .needsAuthFirst
  | some m =>
    match path with
    | Option.none => .url false (stripVersionUrl m)
    | some p =>
      if p.isEmpty then .url false (stripVersionUrl m)
      else if c.service_catalog.isSome && c.bypass_url.isNone then
        .url true (c.getServiceUrl ++ p)
      else .url false (m ++ p)

/-! ## Connection pool

Modelled from the spec (4.1): `jacketclient.client._ClientConnectionPool`
maintains a mapping from key to a lazily constructed keep-alive adapter;
adapters are identified here by the allocation counter, which stands for
Python object identity. -/

/-- A connection pool: the next fresh adapter identity and the table of
already constructed adapters.  Entries are never removed. -/
structure ConnectionPool where
  next : Nat
  table : List (String × Nat)
deriving DecidableEq

/-- The empty pool `_ClientConnectionPool()`. -/
def ConnectionPool.empty : ConnectionPool := ⟨0, []⟩

/-- `pool.get(key)`: return the adapter cached for `key`, constructing and
caching a fresh one on a miss. -/
def ConnectionPool.get (p : ConnectionPool) (k : String) : Nat × ConnectionPool :=
  match p.table.lookup k with
  | some a => (a, p)
  | Option.none => (p.next, ⟨p.next + 1, (k, p.next) :: p.table⟩)

/-- Pool well-formedness: every cached adapter identity is below the
allocation counter, and identities are pairwise distinct.  Holds for the
empty pool and is preserved by `get` (proved below), so it captures exactly
the reachable pool states. -/
def ConnectionPool.WF (p : ConnectionPool) : Prop :=
  (∀ kv ∈ p.table, kv.2 < p.next) ∧ (p.table.map (·.2)).Nodup

/-! ## Timing instrumentation

Modelled from the spec (4.3 "Timing" and 4.5): when enabled, every request
appends one `(label, elapsed)` record, with label `"<METHOD> <url>"`. -/

/-- `HTTPClient._time_request(url, method)`: append one timing record when
`self.timings` is set; `elapsed` is the measured wall-clock duration. -/
def HTTPClient.timeRequest (c : HTTPClient) (url method : String)
    (elapsed : Nat) : HTTPClient :=
  if c.timings then
    { c with times := c.times ++ [(method ++ " " ++ url, elapsed)] }
  else c

/-- `get_timings`: the recorded sequence. -/
def HTTPClient.getTimings (c : HTTPClient) : List (String × Nat) := c.times

/-- `reset_timings`: clear the recorded sequence. -/
def HTTPClient.resetTimings (c : HTTPClient) : HTTPClient := { c with times := [] }

/-! ## Helper lemmas -/

/-- Reduction of a successful `Except` bind. -/
theorem exceptOkBind {ε α β : Type} (a : α) (f : α → Except ε β) :
    (Except.ok a : Except ε α) >>= f = f a := rfl

/-- Reduction of a failed `Except` bind. -/
theorem exceptErrBind {ε α β : Type} (e : ε) (f : α → Except ε β) :
    (Except.error e : Except ε α) >>= f = Except.error e := rfl

/-- A lookup over an association list none of whose keys is `k` misses. -/
theorem lookup_none_of_keys_ne (l : List (String × PyVal)) (k : String)
    (h : ∀ q ∈ l, q.1 ≠ k) : l.lookup k = Option.none := by
  induction l with
  | nil => rfl
  | cons q t ih =>
    obtain ⟨a, b⟩ := q
    have hq : a ≠ k := h (a, b) (by simp)
    have hb : (k == a) = false := by
      simp only [beq_eq_false_iff_ne]
      exact fun e => hq e.symm
    simp only [List.lookup, hb]
    exact ih (fun r hr => h r (List.mem_cons_of_mem _ hr))

/-- `any` over keys distinct from `k` is false. -/
theorem any_key_eq_false (l : List (String × PyVal)) (k : String)
    (h : ∀ q ∈ l, q.1 ≠ k) : (l.any (fun q => q.1 == k)) = false := by
  simp only [List.any_eq_false]
  intro q hq
  simp [h q hq]

/-! ## Claim theorems -/

/-- C9: every call to `FlavorMapperManager.create` or `.update` with
`flavor_id` `None` or `dest_flavor_id` `None`, and every call to
`InstanceMapperManager.create` with `instance_id` `None` or
`dest_instance_id` `None`, raises `CommandError` before any network request
is issued (the result is an error, so no `ManagerRequest` ever reaches the
HTTP layer and client state is unchanged).  The keyword dictionaries `kf` and
`ki` are the collected `**kwargs` of the call, which Python's call-site
binding guarantees contain no key equal to a declared parameter name. -/
theorem claim_C9_none_ids_raise_command_error
    (f d p i di pi : PyVal) (kf ki : List (String × PyVal))
    (hkf : ∀ q ∈ kf, q.1 ≠ "flavor_id" ∧ q.1 ≠ "dest_flavor_id" ∧ q.1 ≠ "project_id")
    (hki : ∀ q ∈ ki, q.1 ≠ "instance_id" ∧ q.1 ≠ "dest_instance_id" ∧ q.1 ≠ "project_id")
    (hfd : f = PyVal.none ∨ d = PyVal.none)
    (hii : i = PyVal.none ∨ di = PyVal.none) :
    (∃ m, FlavorMapperManager.create f d p kf = .error (.commandError m)) ∧
    (∃ m, FlavorMapperManager.update f d p kf = .error (.commandError m)) ∧
    (∃ m, InstanceMapperManager.create i di pi ki = .error (.commandError m)) := by
  have h1 : (kf.any (fun q => q.1 == "flavor_id")) = false :=
    any_key_eq_false _ _ (fun q hq => (hkf q hq).1)
  have h2 : (kf.any (fun q => q.1 == "dest_flavor_id")) = false :=
    any_key_eq_false _ _ (fun q hq => (hkf q hq).2.1)
  have h3 : (ki.any (fun q => q.1 == "instance_id")) = false :=
    any_key_eq_false _ _ (fun q hq => (hki q hq).1)
  have h4 : (ki.any (fun q => q.1 == "dest_instance_id")) = false :=
    any_key_eq_false _ _ (fun q hq => (hki q hq).2.1)
  refine ⟨?_, ?_, ?_⟩
  · simp only [FlavorMapperManager.create, FlavorMapperManager.buildBody, bindArgs,
      flavorBuildBodyParams, flavorBuildBodyCore]
    simp [h1, h2, List.lookup, envGet, List.mapM.loop, exceptOkBind, exceptErrBind]
    by_cases hf : f = PyVal.none
    · simp [hf, exceptOkBind, exceptErrBind, List.lookup]
    · rcases hfd with h | h
      · exact absurd h hf
      · simp [hf, h, exceptOkBind, exceptErrBind, List.lookup]
  · simp only [FlavorMapperManager.update, FlavorMapperManager.buildBody, bindArgs,
      flavorBuildBodyParams, flavorBuildBodyCore]
    simp [h1, h2, List.lookup, envGet, List.mapM.loop, exceptOkBind, exceptErrBind]
    by_cases hf : f = PyVal.none
    · simp [hf, exceptOkBind, exceptErrBind, List.lookup]
    · rcases hfd with h | h
      · exact absurd h hf
      · simp [hf, h, exceptOkBind, exceptErrBind, List.lookup]
  · by_cases hd : di = PyVal.none
    · simp [InstanceMapperManager.create, hd]
    · rcases hii with h | h
      · simp only [InstanceMapperManager.create, InstanceMapperManager.buildBody, bindArgs,
          instanceBuildBodyParams, instanceBuildBodyCore]
        simp [h3, h4, hd, h, List.lookup, envGet, List.mapM.loop, exceptOkBind, exceptErrBind]
      · exact absurd h hd

/-- C9 witness: the theorem instantiated at `None` ids with empty keyword
dictionaries. -/
theorem claim_C9_witness :
    (∃ m, FlavorMapperManager.create PyVal.none (PyVal.str "d") PyVal.none []
      = .error (.commandError m)) ∧
    (∃ m, FlavorMapperManager.update PyVal.none (PyVal.str "d") PyVal.none []
      = .error (.commandError m)) ∧
    (∃ m, InstanceMapperManager.create (PyVal.str "i") PyVal.none PyVal.none []
      = .error (.commandError m)) :=
  claim_C9_none_ids_raise_command_error PyVal.none (PyVal.str "d") PyVal.none
    (PyVal.str "i") PyVal.none PyVal.none [] []
    (by simp) (by simp) (Or.inl rfl) (Or.inr rfl)

/-- C10: because `ImageMapperManager._build_body` and
`ProjectMapperManager._build_body` are `@staticmethod`s whose first declared
parameter is `self`, the two positional ids the callers pass shift by one:
the first id fills `self`, the second fills the first id parameter, and the
final required parameter (`dest_image_id` resp. `dest_project_id`) is left
unfilled whenever the extra keyword arguments do not supply it.  Every such
`create`/`update` call therefore fails with Python's missing-required-argument
`TypeError` before any request is issued and before the `CommandError`
validation in the body can run. -/
theorem claim_C10_static_self_shifts_arguments
    (i d p pj dj : PyVal) (ki kp : List (String × PyVal))
    (hki : ∀ q ∈ ki, q.1 ≠ "self" ∧ q.1 ≠ "image_id" ∧ q.1 ≠ "dest_image_id" ∧
      q.1 ≠ "project_id")
    (hkp : ∀ q ∈ kp, q.1 ≠ "self" ∧ q.1 ≠ "project_id" ∧ q.1 ≠ "dest_project_id") :
    ImageMapperManager.create i d p ki
      = .error (.typeErrorMissingArg "_build_body" "dest_image_id") ∧
    ImageMapperManager.update i d p ki
      = .error (.typeErrorMissingArg "_build_body" "dest_image_id") ∧
    ProjectMapperManager.create pj dj kp
      = .error (.typeErrorMissingArg "_build_body" "dest_project_id") ∧
    ProjectMapperManager.update pj dj kp
      = .error (.typeErrorMissingArg "_build_body" "dest_project_id") := by
  have h1 : (ki.any (fun q => q.1 == "self")) = false :=
    any_key_eq_false _ _ (fun q hq => (hki q hq).1)
  have h2 : (ki.any (fun q => q.1 == "image_id")) = false :=
    any_key_eq_false _ _ (fun q hq => (hki q hq).2.1)
  have h3 : ki.lookup "dest_image_id" = Option.none :=
    lookup_none_of_keys_ne _ _ (fun q hq => (hki q hq).2.2.1)
  have h4 : (kp.any (fun q => q.1 == "self")) = false :=
    any_key_eq_false _ _ (fun q hq => (hkp q hq).1)
  have h5 : (kp.any (fun q => q.1 == "project_id")) = false :=
    any_key_eq_false _ _ (fun q hq => (hkp q hq).2.1)
  have h6 : kp.lookup "dest_project_id" = Option.none :=
    lookup_none_of_keys_ne _ _ (fun q hq => (hkp q hq).2.2)
  refine ⟨?_, ?_, ?_, ?_⟩
  · simp only [ImageMapperManager.create, ImageMapperManager.buildBody, bindArgs,
      imageBuildBodyParams, imageBuildBodyCore]
    simp [h1, h2, h3, List.lookup, envGet, List.mapM.loop, exceptOkBind, exceptErrBind]
  · simp only [ImageMapperManager.update, ImageMapperManager.buildBody, bindArgs,
      imageBuildBodyParams, imageBuildBodyCore]
    simp [h1, h2, h3, List.lookup, envGet, List.mapM.loop, exceptOkBind, exceptErrBind]
  · simp only [ProjectMapperManager.create, ProjectMapperManager.buildBody, bindArgs,
      projectBuildBodyParams, projectBuildBodyCore]
    simp [h4, h5, h6, List.lookup, envGet, List.mapM.loop, exceptOkBind, exceptErrBind]
  · simp only [ProjectMapperManager.update, ProjectMapperManager.buildBody, bindArgs,
      projectBuildBodyParams, projectBuildBodyCore]
    simp [h4, h5, h6, List.lookup, envGet, List.mapM.loop, exceptOkBind, exceptErrBind]

/-- C10 witness: the theorem instantiated at fully valid string ids with empty
keyword dictionaries — even then the calls fail with the missing-argument
`TypeError`. -/
theorem claim_C10_witness :
    ImageMapperManager.create (PyVal.str "img") (PyVal.str "dst") PyVal.none []
      = .error (.typeErrorMissingArg "_build_body" "dest_image_id") ∧
    ImageMapperManager.update (PyVal.str "img") (PyVal.str "dst") PyVal.none []
      = .error (.typeErrorMissingArg "_build_body" "dest_image_id") ∧
    ProjectMapperManager.create (PyVal.str "p") (PyVal.str "dp") []
      = .error (.typeErrorMissingArg "_build_body" "dest_project_id") ∧
    ProjectMapperManager.update (PyVal.str "p") (PyVal.str "dp") []
      = .error (.typeErrorMissingArg "_build_body" "dest_project_id") :=
  claim_C10_static_self_shifts_arguments (PyVal.str "img") (PyVal.str "dst")
    PyVal.none (PyVal.str "p") (PyVal.str "dp") [] [] (by simp) (by simp)

/-- An endpoint selected by `matchingEndpoints` always carries the requested
`endpoint_type` attribute. -/
theorem mem_matching_isSome (sc : ServiceCatalog) (st : String)
    (sn : Option String) (et : String) (filt : Option (String × String))
    (ep : Endpoint) (h : ep ∈ matchingEndpoints sc st sn et filt) :
    (ciLookup ep.attrs et).isSome = true := by
  unfold matchingEndpoints at h
  have hp := List.of_mem_filter h
  unfold endpointMatches at hp
  exact (Bool.and_eq_true _ _ |>.mp hp).1

/-- C2: for every service catalog and every `url_for` query, resolution is a
complete trichotomy on the list of matching endpoints: a URL is returned
exactly when exactly one endpoint matches (and it is that endpoint's URL),
`EndpointNotFound` is raised exactly when zero match, and
`AmbiguousEndpoints` — carrying precisely the candidate list — is raised
exactly when two or more match.  In particular `url_for` never silently picks
one of several matches. -/
theorem claim_C2_urlFor_trichotomy (sc : ServiceCatalog)
    (filt : Option (String × String)) (st : String) (sn : Option String)
    (et : String) :
    (∀ u, sc.urlFor filt st sn et = .ok u ↔
      ∃ ep, matchingEndpoints sc st sn et filt = [ep] ∧
        ciLookup ep.attrs et = some u) ∧
    (sc.urlFor filt st sn et = .error .endpointNotFound ↔
      matchingEndpoints sc st sn et filt = []) ∧
    (∀ c, sc.urlFor filt st sn et = .error (.ambiguousEndpoints c) ↔
      c = matchingEndpoints sc st sn et filt ∧
        2 ≤ (matchingEndpoints sc st sn et filt).length) := by
  rcases hms : matchingEndpoints sc st sn et filt with _ | ⟨ep, _ | ⟨ep2, tl⟩⟩
  · refine ⟨?_, ?_, ?_⟩
    · intro u
      simp [ServiceCatalog.urlFor, hms]
    · simp [ServiceCatalog.urlFor, hms]
    · intro c
      simp [ServiceCatalog.urlFor, hms]
  · have hsome : (ciLookup ep.attrs et).isSome = true :=
      mem_matching_isSome sc st sn et filt ep (by rw [hms]; simp)
    obtain ⟨w, hw⟩ := Option.isSome_iff_exists.mp hsome
    refine ⟨?_, ?_, ?_⟩
    · intro u
      simp only [ServiceCatalog.urlFor, hms, hw]
      constructor
      · intro h
        refine ⟨ep, rfl, ?_⟩
        simp only [Except.ok.injEq] at h
        simp only [Option.getD_some] at h
        simp [hw, h]
      · rintro ⟨ep', hep', hl⟩
        simp only [List.cons.injEq] at hep'
        obtain ⟨rfl, -⟩ := hep'
        rw [hw] at hl
        simp only [Option.some.injEq] at hl
        simp [hl]
    · simp [ServiceCatalog.urlFor, hms]
    · intro c
      simp [ServiceCatalog.urlFor, hms]
  · refine ⟨?_, ?_, ?_⟩
    · intro u
      simp [ServiceCatalog.urlFor, hms]
    · simp [ServiceCatalog.urlFor, hms]
    · intro c
      simp only [ServiceCatalog.urlFor, hms]
      constructor
      · intro h
        simp only [Except.error.injEq, CatalogError.ambiguousEndpoints.injEq] at h
        subst h
        simp
      · rintro ⟨rfl, -⟩
        rfl

/-- C2 witness: the trichotomy applied to the concrete test catalog — the
unique `tenantId = 1` volume endpoint resolves to its URL. -/
theorem claim_C2_witness :
    volumeCatalog.urlFor (some ("tenantId", "1")) "volume" Option.none "publicURL"
      = .ok "https://volume1.host/v1/1" :=
  ((claim_C2_urlFor_trichotomy volumeCatalog (some ("tenantId", "1")) "volume"
      Option.none "publicURL").1 "https://volume1.host/v1/1").mpr
    ⟨volumeEndpoint1, by rfl, by rfl⟩

/-- C3: catalog endpoint filtering is case-insensitive in the filter value
(and in the attribute key lookup): replacing a filter value (or key) by any
string with the same lowercasing does not change which endpoints match; on the
test catalog, the filter value `south` matches the two endpoints whose
`region` attribute is `South`, yielding `AmbiguousEndpoints` rather than
`EndpointNotFound`. -/
theorem claim_C3_filter_case_insensitive :
    (∀ (ep : Endpoint) (et k v₁ v₂ : String), pyLower v₁ = pyLower v₂ →
      endpointMatches ep et (some (k, v₁)) = endpointMatches ep et (some (k, v₂))) ∧
    (∀ (ep : Endpoint) (et k₁ k₂ v : String), pyLower k₁ = pyLower k₂ →
      endpointMatches ep et (some (k₁, v)) = endpointMatches ep et (some (k₂, v))) ∧
    volumeCatalog.urlFor (some ("region", "south")) "volume" Option.none "publicURL"
      = .error (.ambiguousEndpoints [volumeEndpoint1, volumeEndpoint2]) := by
  refine ⟨?_, ?_, by rfl⟩
  · intro ep et k v₁ v₂ hv
    simp [endpointMatches, hv]
  · intro ep et k₁ k₂ v hk
    simp [endpointMatches, ciLookup, hk]

/-- C3 witness: the case-insensitivity part applied at the concrete filter
values `south` and `South` on a concrete endpoint. -/
theorem claim_C3_witness :
    endpointMatches volumeEndpoint1 "publicURL" (some ("region", "south"))
      = endpointMatches volumeEndpoint1 "publicURL" (some ("region", "South")) :=
  claim_C3_filter_case_insensitive.1 volumeEndpoint1 "publicURL" "region"
    "south" "South" (by rfl)

/-- C1: when a request issued with a prior token gets a 401 and is not itself
a retry, the transport performs exactly one re-authentication — a POST of the
password credentials to `<auth_url>/tokens` — followed by exactly one retry
of the original request carrying the refreshed token; the trace contains
exactly those three calls (one auth POST, two API requests — the original
and the single retry, so no third attempt exists), and if the retry also
returns 401 the call fails with `Unauthorized`. -/
theorem claim_C1_reauth_exactly_once (c : SessionState) (method url : String)
    (r1 r2 r3 : ScriptedResponse)
    (h1 : r1.status = 401) (h2 : r2.status = 200 ∨ r2.status = 203) :
    (csRequest c method url r1 r2 r3).1 =
      [HttpCall.apiRequest method url c.auth_token,
       HttpCall.authPost (c.auth_url ++ "/tokens") c.user c.password c.projectid,
       HttpCall.apiRequest method url r2.token] ∧
    ((csRequest c method url r1 r2 r3).1.countP (·.isAuthPost)) = 1 ∧
    ((csRequest c method url r1 r2 r3).1.countP (·.isApiRequest)) = 2 ∧
    (r3.status = 401 →
      (csRequest c method url r1 r2 r3).2 = .error .unauthorized) := by
  have hauth : authenticate c r2 =
      (HttpCall.authPost (c.auth_url ++ "/tokens") c.user c.password c.projectid,
       .ok { c with auth_token := r2.token, management_url := r2.mgmtUrl }) := by
    simp [authenticate, h2]
  constructor
  · simp only [csRequest, h1, if_pos rfl, hauth]
    by_cases h3 : r3.status = 401 <;> simp [h3]
  · refine ⟨?_, ?_, ?_⟩ <;>
    · simp only [csRequest, h1, if_pos rfl, hauth]
      by_cases h3 : r3.status = 401 <;>
        simp [h3, List.countP, List.countP.go, HttpCall.isAuthPost, HttpCall.isApiRequest]

/-- C1 witness: the re-auth flow at the concrete session of
`test_client_reauth` — first response 401, auth succeeds, retry 401 again —
produces the three-call trace and fails with `Unauthorized`. -/
theorem claim_C1_witness :
    (csRequest
        ⟨"user", "password", "project", "http://www.example.com", "foobar",
          "http://mgmt.example.com"⟩
        "GET" "http://mgmt.example.com/servers/detail"
        ⟨401, "", ""⟩ ⟨200, "newtok", "http://mgmt.example.com"⟩
        ⟨401, "", ""⟩).1 =
      [HttpCall.apiRequest "GET" "http://mgmt.example.com/servers/detail" "foobar",
       HttpCall.authPost "http://www.example.com/tokens" "user" "password" "project",
       HttpCall.apiRequest "GET" "http://mgmt.example.com/servers/detail" "newtok"] ∧
    ((csRequest
        ⟨"user", "password", "project", "http://www.example.com", "foobar",
          "http://mgmt.example.com"⟩
        "GET" "http://mgmt.example.com/servers/detail"
        ⟨401, "", ""⟩ ⟨200, "newtok", "http://mgmt.example.com"⟩
        ⟨401, "", ""⟩).1.countP (·.isAuthPost)) = 1 ∧
    ((csRequest
        ⟨"user", "password", "project", "http://www.example.com", "foobar",
          "http://mgmt.example.com"⟩
        "GET" "http://mgmt.example.com/servers/detail"
        ⟨401, "", ""⟩ ⟨200, "newtok", "http://mgmt.example.com"⟩
        ⟨401, "", ""⟩).1.countP (·.isApiRequest)) = 2 ∧
    ((401 : Nat) = 401 →
      (csRequest
        ⟨"user", "password", "project", "http://www.example.com", "foobar",
          "http://mgmt.example.com"⟩
        "GET" "http://mgmt.example.com/servers/detail"
        ⟨401, "", ""⟩ ⟨200, "newtok", "http://mgmt.example.com"⟩
        ⟨401, "", ""⟩).2 = .error .unauthorized) :=
  claim_C1_reauth_exactly_once
    ⟨"user", "password", "project", "http://www.example.com", "foobar",
      "http://mgmt.example.com"⟩
    "GET" "http://mgmt.example.com/servers/detail"
    ⟨401, "", ""⟩ ⟨200, "newtok", "http://mgmt.example.com"⟩ ⟨401, "", ""⟩
    rfl (Or.inl rfl)

set_option maxRecDepth 400000 in
/-- C4: with debug logging enabled, a request with header
`X-Auth-Token: totally_bogus` is logged with the token replaced by exactly
`{SHA1}b42162b6ffdbd7c3c37b7c95b7ba9f51dda0236d`; a header `X-Auth-Token`
whose value is `None` is logged as the literal text `None`; and a body whose
`auth.passwordCredentials.password` is `zhaoqin` is logged with the password
replaced by exactly `{SHA1}4fc49c6a671ce889078ff6b250f7066cf6d2ada2` — in
each case the rest of the logged line is the equivalent curl invocation of
the request. -/
theorem claim_C4_log_redaction :
    httpLogReq true "GET" "/foo" [("X-Auth-Token", some "totally_bogus")]
        Option.none =
      some "REQ: curl -g -i '/foo' -X GET -H \"X-Auth-Token: {SHA1}b42162b6ffdbd7c3c37b7c95b7ba9f51dda0236d\"" ∧
    httpLogReq true "GET" "/foo" [("X-Auth-Token", Option.none)] Option.none =
      some "REQ: curl -g -i '/foo' -X GET -H \"X-Auth-Token: None\"" ∧
    httpLogReq true "GET" "/foo" []
        (some (.obj (.cons "auth" (.obj (.cons "passwordCredentials"
          (.obj (.cons "password" (.str "zhaoqin") .nil)) .nil)) .nil))) =
      some "REQ: curl -g -i '/foo' -X GET -d '\x7b\"auth\": \x7b\"passwordCredentials\": \x7b\"password\": \"\x7bSHA1\x7d4fc49c6a671ce889078ff6b250f7066cf6d2ada2\"\x7d\x7d\x7d'" := by
  refine ⟨by decide, by decide, by decide⟩

/-- A successful lookup witnesses membership of the key/value pair. -/
theorem mem_of_lookup_eq_some (l : List (String × Nat)) (k : String) (a : Nat)
    (h : l.lookup k = some a) : (k, a) ∈ l := by
  induction l with
  | nil => simp [List.lookup] at h
  | cons q t ih =>
    obtain ⟨b, c⟩ := q
    by_cases hkb : (k == b) = true
    · simp only [List.lookup, hkb] at h
      have hk : k = b := eq_of_beq hkb
      simp only [Option.some.injEq] at h
      simp [hk, h]
    · simp only [List.lookup, Bool.not_eq_true] at h
      rw [Bool.not_eq_true] at hkb
      rw [hkb] at h
      exact List.mem_cons_of_mem _ (ih h)

/-- With pairwise-distinct adapter identities, two keys cached with the same
adapter are equal. -/
theorem lookup_key_inj (l : List (String × Nat))
    (hnd : (l.map (·.2)).Nodup) (k1 k2 : String) (a : Nat)
    (h1 : l.lookup k1 = some a) (h2 : l.lookup k2 = some a) : k1 = k2 := by
  induction l with
  | nil => simp [List.lookup] at h1
  | cons q t ih =>
    obtain ⟨b, c⟩ := q
    simp only [List.map_cons, List.nodup_cons] at hnd
    by_cases hb1 : (k1 == b) = true
    · by_cases hb2 : (k2 == b) = true
      · exact (eq_of_beq hb1).trans (eq_of_beq hb2).symm
      · rw [Bool.not_eq_true] at hb2
        simp only [List.lookup, hb1, hb2, Option.some.injEq] at h1 h2
        exfalso
        apply hnd.1
        have := mem_of_lookup_eq_some t k2 a h2
        rw [h1]
        exact List.mem_map_of_mem (·.2) this
    · by_cases hb2 : (k2 == b) = true
      · rw [Bool.not_eq_true] at hb1
        simp only [List.lookup, hb1, hb2, Option.some.injEq] at h1 h2
        exfalso
        apply hnd.1
        have := mem_of_lookup_eq_some t k1 a h1
        rw [h2]
        exact List.mem_map_of_mem (·.2) this
      · rw [Bool.not_eq_true] at hb1 hb2
        simp only [List.lookup, hb1, hb2] at h1 h2
        exact ih hnd.2 h1 h2

/-- C6: for every well-formed connection pool and all keys, two `get` calls
with the same key return the identical adapter instance (object identity is
modelled by the allocation counter), two `get` calls with different keys
return distinct instances, entries are never evicted (the original table
survives both calls), and well-formedness is preserved — so the property
holds along every sequence of `get` calls starting from the empty pool. -/
theorem claim_C6_pool_identity (p : ConnectionPool) (k1 k2 : String) (hw : p.WF) :
    (k1 = k2 → (p.get k1).1 = ((p.get k1).2.get k2).1) ∧
    (k1 ≠ k2 → (p.get k1).1 ≠ ((p.get k1).2.get k2).1) ∧
    (∀ e ∈ p.table, e ∈ ((p.get k1).2.get k2).2.table) ∧
    ((p.get k1).2.get k2).2.WF := by
  obtain ⟨hlt, hnd⟩ := hw
  rcases hl1 : p.table.lookup k1 with _ | a1
  · -- k1 fresh: get allocates p.next
    have hg1 : p.get k1 = (p.next, ⟨p.next + 1, (k1, p.next) :: p.table⟩) := by
      simp [ConnectionPool.get, hl1]
    rcases hl2 : p.table.lookup k2 with _ | a2
    · by_cases hk : k1 = k2
      · subst hk
        have hg2 : (ConnectionPool.get ⟨p.next + 1, (k1, p.next) :: p.table⟩ k1) =
            (p.next, ⟨p.next + 1, (k1, p.next) :: p.table⟩) := by
          simp [ConnectionPool.get, List.lookup]
        refine ⟨fun _ => ?_, fun h => absurd rfl h, ?_, ?_⟩
        · simp [hg1, hg2]
        · intro e he
          simp [hg1, hg2, List.mem_cons_of_mem, he]
        · simp only [hg1, hg2]
          constructor
          · intro kv hkv
            rcases List.mem_cons.mp hkv with h | h
            · simp [h]
            · exact Nat.lt_succ_of_lt (hlt kv h)
          · simp only [List.map_cons, List.nodup_cons]
            exact ⟨fun hmem => by
              obtain ⟨kv, hkv, hkv2⟩ := List.mem_map.mp hmem
              exact absurd (hkv2 ▸ hlt kv hkv) (Nat.lt_irrefl _), hnd⟩
      · -- k2 also fresh and ≠ k1: lookup k2 in new table misses head
        have hb : (k2 == k1) = false := by
          simp only [beq_eq_false_iff_ne]
          exact fun e => hk e.symm
        have hg2 : (ConnectionPool.get ⟨p.next + 1, (k1, p.next) :: p.table⟩ k2) =
            (p.next + 1, ⟨p.next + 2, (k2, p.next + 1) :: (k1, p.next) :: p.table⟩) := by
          simp [ConnectionPool.get, List.lookup, hb, hl2]
        refine ⟨fun h => absurd h hk, fun _ => ?_, ?_, ?_⟩
        · simp [hg1, hg2]
        · intro e he
          simp [hg1, hg2, List.mem_cons_of_mem, he]
        · simp only [hg1, hg2]
          constructor
          · intro kv hkv
            rcases List.mem_cons.mp hkv with h | h
            · simp [h]
            · rcases List.mem_cons.mp h with h' | h'
              · rw [h']
                show p.next < p.next + 2
                omega
              · have := hlt kv h'
                show kv.2 < p.next + 2
                omega
          · simp only [List.map_cons, List.nodup_cons]
            refine ⟨?_, ?_, hnd⟩
            · intro hmem
              rcases List.mem_cons.mp hmem with h | h
              · omega
              · obtain ⟨kv, hkv, hkv2⟩ := List.mem_map.mp h
                have := hlt kv hkv; omega
            · intro hmem
              obtain ⟨kv, hkv, hkv2⟩ := List.mem_map.mp hmem
              have := hlt kv hkv; omega
    · -- k2 already present with adapter a2 < next
      by_cases hk : k1 = k2
      · subst hk
        rw [hl1] at hl2; exact absurd hl2 (by simp)
      · have hb : (k2 == k1) = false := by
          simp only [beq_eq_false_iff_ne]
          exact fun e => hk e.symm
        have ha2 : a2 < p.next := hlt _ (mem_of_lookup_eq_some _ _ _ hl2)
        have hg2 : (ConnectionPool.get ⟨p.next + 1, (k1, p.next) :: p.table⟩ k2) =
            (a2, ⟨p.next + 1, (k1, p.next) :: p.table⟩) := by
          simp [ConnectionPool.get, List.lookup, hb, hl2]
        refine ⟨fun h => absurd h hk, fun _ => ?_, ?_, ?_⟩
        · simp only [hg1, hg2]
          omega
        · intro e he
          simp [hg1, hg2, List.mem_cons_of_mem, he]
        · simp only [hg1, hg2]
          constructor
          · intro kv hkv
            rcases List.mem_cons.mp hkv with h | h
            · simp [h]
            · exact Nat.lt_succ_of_lt (hlt kv h)
          · simp only [List.map_cons, List.nodup_cons]
            exact ⟨fun hmem => by
              obtain ⟨kv, hkv, hkv2⟩ := List.mem_map.mp hmem
              exact absurd (hkv2 ▸ hlt kv hkv) (Nat.lt_irrefl _), hnd⟩
  · -- k1 present: pool unchanged
    have hg1 : p.get k1 = (a1, p) := by
      simp [ConnectionPool.get, hl1]
    rcases hl2 : p.table.lookup k2 with _ | a2
    · have hg2 : p.get k2 = (p.next, ⟨p.next + 1, (k2, p.next) :: p.table⟩) := by
        simp [ConnectionPool.get, hl2]
      have ha1 : a1 < p.next := hlt _ (mem_of_lookup_eq_some _ _ _ hl1)
      refine ⟨fun h => ?_, fun _ => ?_, ?_, ?_⟩
      · subst h; rw [hl1] at hl2; exact absurd hl2 (by simp)
      · simp only [hg1, hg2]
        omega
      · intro e he
        simp [hg1, hg2, List.mem_cons_of_mem, he]
      · simp only [hg1, hg2]
        constructor
        · intro kv hkv
          rcases List.mem_cons.mp hkv with h | h
          · simp [h]
          · exact Nat.lt_succ_of_lt (hlt kv h)
        · simp only [List.map_cons, List.nodup_cons]
          exact ⟨fun hmem => by
            obtain ⟨kv, hkv, hkv2⟩ := List.mem_map.mp hmem
            exact absurd (hkv2 ▸ hlt kv hkv) (Nat.lt_irrefl _), hnd⟩
    · have hg2 : p.get k2 = (a2, p) := by
        simp [ConnectionPool.get, hl2]
      refine ⟨fun h => ?_, fun h => ?_, ?_, ?_⟩
      · subst h
        rw [hl1] at hl2
        simp only [Option.some.injEq] at hl2
        simp [hg1, hl2]
      · simp only [hg1, hg2]
        intro he
        exact h (lookup_key_inj p.table hnd k1 k2 a1 hl1 (he ▸ hl2))
      · intro e he
        simp [hg1, hg2, he]
      · simp only [hg1, hg2]
        exact ⟨hlt, hnd⟩


/-- C6 witness: the theorem applied to the empty pool with the keys of
`ClientConnectionPoolTest.test_get`. -/
theorem claim_C6_witness :
    ("abc" = "def" →
      (ConnectionPool.empty.get "abc").1 =
        ((ConnectionPool.empty.get "abc").2.get "def").1) ∧
    ("abc" ≠ "def" →
      (ConnectionPool.empty.get "abc").1 ≠
        ((ConnectionPool.empty.get "abc").2.get "def").1) ∧
    (∀ e ∈ ConnectionPool.empty.table,
      e ∈ ((ConnectionPool.empty.get "abc").2.get "def").2.table) ∧
    ((ConnectionPool.empty.get "abc").2.get "def").2.WF :=
  claim_C6_pool_identity ConnectionPool.empty "abc" "def"
    ⟨by simp [ConnectionPool.empty], by simp [ConnectionPool.empty]⟩

/-- C8: with timing disabled a request appends zero records; with timing
enabled it appends exactly one record labelled `"<METHOD> <url>"`; the
sequence is append-only (the old records survive as an unchanged front
segment), is read by `get_timings`, and `reset_timings` empties it. -/
theorem claim_C8_timings (c : HTTPClient) (url method : String) (d : Nat) :
    (c.timings = false →
      (c.timeRequest url method d).getTimings = c.getTimings) ∧
    (c.timings = true →
      (c.timeRequest url method d).getTimings =
        c.getTimings ++ [(method ++ " " ++ url, d)]) ∧
    (∃ t, (c.timeRequest url method d).getTimings = c.getTimings ++ t) ∧
    c.resetTimings.getTimings = [] := by
  refine ⟨fun h => by simp [HTTPClient.timeRequest, HTTPClient.getTimings, h],
    fun h => by simp [HTTPClient.timeRequest, HTTPClient.getTimings, h],
    ?_, by simp [HTTPClient.resetTimings, HTTPClient.getTimings]⟩
  by_cases h : c.timings
  · exact ⟨[(method ++ " " ++ url, d)],
      by simp [HTTPClient.timeRequest, HTTPClient.getTimings, h]⟩
  · exact ⟨[], by simp [HTTPClient.timeRequest, HTTPClient.getTimings, h]⟩

/-- C8 witness: the theorem at the concrete client of `test_timings` — the
recorded label is `GET http://no.where`. -/
theorem claim_C8_witness :
    ((mkHTTPClient (some "zqfan") (some "") Option.none Option.none Option.none
        Option.none "jacket" true).timings = false →
      ((mkHTTPClient (some "zqfan") (some "") Option.none Option.none Option.none
        Option.none "jacket" true).timeRequest "http://no.where" "GET" 5).getTimings =
        (mkHTTPClient (some "zqfan") (some "") Option.none Option.none Option.none
          Option.none "jacket" true).getTimings) ∧
    ((mkHTTPClient (some "zqfan") (some "") Option.none Option.none Option.none
        Option.none "jacket" true).timings = true →
      ((mkHTTPClient (some "zqfan") (some "") Option.none Option.none Option.none
        Option.none "jacket" true).timeRequest "http://no.where" "GET" 5).getTimings =
        (mkHTTPClient (some "zqfan") (some "") Option.none Option.none Option.none
          Option.none "jacket" true).getTimings ++ [("GET" ++ " " ++ "http://no.where", 5)]) ∧
    (∃ t, ((mkHTTPClient (some "zqfan") (some "") Option.none Option.none Option.none
        Option.none "jacket" true).timeRequest "http://no.where" "GET" 5).getTimings =
        (mkHTTPClient (some "zqfan") (some "") Option.none Option.none Option.none
          Option.none "jacket" true).getTimings ++ t) ∧
    (mkHTTPClient (some "zqfan") (some "") Option.none Option.none Option.none
        Option.none "jacket" true).resetTimings.getTimings = [] :=
  claim_C8_timings
    (mkHTTPClient (some "zqfan") (some "") Option.none Option.none Option.none
      Option.none "jacket" true) "http://no.where" "GET" 5

/-- C7: URL normalization happens once at construction — `auth_url "foo/v1/"`
is stored as `"foo/v1"`; constructing with `bypass_url "jacket/v100/"` (and no
auth URL) stores `auth_url = None`, `management_url = "jacket/v100"` and no
catalog, and since the management URL is present at construction no
authentication (network call) is needed before the first request; in bypass
mode the service-catalog lookup is never consulted when building request
URLs (`catalogConsulted` is `false` for every path). -/
theorem claim_C7_construction_normalization :
    (∀ (u pw pid tok : Option String) (st : String) (b : Bool),
      (mkHTTPClient u pw pid (some "foo/v1/") tok Option.none st b).auth_url
        = some "foo/v1") ∧
    ((mkHTTPClient Option.none Option.none Option.none Option.none (some "12345")
        (some "jacket/v100/") "jacket" false).auth_url = Option.none ∧
      (mkHTTPClient Option.none Option.none Option.none Option.none (some "12345")
        (some "jacket/v100/") "jacket" false).auth_token = some "12345" ∧
      (mkHTTPClient Option.none Option.none Option.none Option.none (some "12345")
        (some "jacket/v100/") "jacket" false).bypass_url = some "jacket/v100" ∧
      (mkHTTPClient Option.none Option.none Option.none Option.none (some "12345")
        (some "jacket/v100/") "jacket" false).management_url = some "jacket/v100" ∧
      (mkHTTPClient Option.none Option.none Option.none Option.none (some "12345")
        (some "jacket/v100/") "jacket" false).service_catalog = Option.none) ∧
    (∀ (c : HTTPClient) (m p : String),
      c.bypass_url.isSome = true → c.management_url = some m →
      (∀ q : Option String, c.csUrl q ≠ .needsAuthFirst) ∧
      (¬p.isEmpty = true → c.csUrl (some p) = .url false (m ++ p))) := by
  refine ⟨?_, ?_, ?_⟩
  · intro u pw pid tok st b
    rfl
  · exact ⟨rfl, rfl, rfl, rfl, rfl⟩
  · intro c m p hb hm
    obtain ⟨bu, hbu⟩ := Option.isSome_iff_exists.mp hb
    constructor
    · intro q
      cases q with
      | none => simp [HTTPClient.csUrl, hm]
      | some s =>
        simp only [HTTPClient.csUrl, hm]
        by_cases hs : s.isEmpty <;> simp [hs, hbu]
    · intro hp
      simp [HTTPClient.csUrl, hm, hp, hbu]

/-- C7 witness: the bypass-mode part applied to the concretely constructed
bypass client of `test_token_and_bypass_url` with path `/servers`. -/
theorem claim_C7_witness :
    (∀ q : Option String,
      (mkHTTPClient Option.none Option.none Option.none Option.none (some "12345")
        (some "jacket/v100/") "jacket" false).csUrl q ≠ .needsAuthFirst) ∧
    (¬("/servers".isEmpty) = true →
      (mkHTTPClient Option.none Option.none Option.none Option.none (some "12345")
        (some "jacket/v100/") "jacket" false).csUrl (some "/servers")
        = .url false ("jacket/v100" ++ "/servers")) :=
  claim_C7_construction_normalization.2.2
    (mkHTTPClient Option.none Option.none Option.none Option.none (some "12345")
      (some "jacket/v100/") "jacket" false)
    "jacket/v100" "/servers" (by rfl) (by rfl)

/-- `splitSlash` never returns the empty list. -/
theorem splitSlash_ne_nil (l : List Char) : splitSlash l ≠ [] := by
  induction l with
  | nil => simp [splitSlash]
  | cons c cs ih =>
    cases h : splitSlash cs with
    | nil => simp [splitSlash, h]
    | cons s ss =>
      simp only [splitSlash, h]
      by_cases hc : c = '/' <;> simp [hc]

/-- A slash-free character list splits into itself. -/
theorem splitSlash_no_slash (s : List Char) (h : '/' ∉ s) : splitSlash s = [s] := by
  induction s with
  | nil => rfl
  | cons c cs ih =>
    have hc : c ≠ '/' := fun e => h (by simp [e])
    have ih' := ih (fun e => h (List.mem_cons_of_mem _ e))
    simp only [splitSlash, ih']
    simp [fun e => hc e]

/-- Splitting after a slash-free front segment peels it off. -/
theorem splitSlash_append (s r : List Char) (h : '/' ∉ s) :
    splitSlash (s ++ '/' :: r) = s :: splitSlash r := by
  induction s with
  | nil =>
    simp only [List.nil_append, splitSlash]
    cases hr : splitSlash r with
    | nil => exact absurd hr (splitSlash_ne_nil r)
    | cons a as => simp
  | cons c cs ih =>
    have hc : c ≠ '/' := fun e => h (by simp [e])
    have ih' := ih (fun e => h (List.mem_cons_of_mem _ e))
    show (match splitSlash (cs ++ '/' :: r) with
          | [] => [[c]]
          | s :: ss => if c = '/' then [] :: s :: ss else (c :: s) :: ss) =
        (c :: cs) :: splitSlash r
    rw [ih']
    simp [hc]

/-- `splitSlash` is a left inverse of `joinSlash` on nonempty lists of
slash-free segments. -/
theorem splitSlash_joinSlash (ss : List (List Char)) (h : ss ≠ [])
    (hs : ∀ s ∈ ss, '/' ∉ s) : splitSlash (joinSlash ss) = ss := by
  induction ss with
  | nil => exact absurd rfl h
  | cons s tl ih =>
    cases tl with
    | nil =>
      simp only [joinSlash]
      exact splitSlash_no_slash s (hs s (by simp))
    | cons s2 tl2 =>
      have hjoin : joinSlash (s :: s2 :: tl2) = s ++ '/' :: joinSlash (s2 :: tl2) := rfl
      rw [hjoin, splitSlash_append s _ (hs s (by simp))]
      rw [ih (by simp) (fun x hx => hs x (List.mem_cons_of_mem _ hx))]

/-- C5: a management URL ending in a version segment followed by a project-id
segment strips to the prefix before the version segment (proved for every
slash-free segment decomposition and checked on the concrete URLs of
`_check_version_url`, both with and without a leading path segment); the
session facade requests exactly this stripped root when the path is
empty/falsy, and appends a non-empty path directly to the unstripped
management URL (whenever the request is not routed through a differing
catalog-resolved URL — in bypass mode, without a catalog, or when the
catalog resolves to the management URL itself, as the authentication flow
establishes). -/
theorem claim_C5_version_url :
    (∀ (front : List (List Char)) (v pid : List Char),
      (∀ s ∈ front, '/' ∉ s) → '/' ∉ v → '/' ∉ pid → isVersionSeg v = true →
      stripVersionChars (joinSlash (front ++ [v, pid])) = joinSlash front ++ ['/']) ∧
    stripVersionUrl "http://example.com/v1/25e469aa1848471b875e68cde6531bc5"
      = "http://example.com/" ∧
    stripVersionUrl "http://example.com/v1.1/25e469aa1848471b875e68cde6531bc5"
      = "http://example.com/" ∧
    stripVersionUrl "http://example.com/v3.785/25e469aa1848471b875e68cde6531bc5"
      = "http://example.com/" ∧
    stripVersionUrl "http://example.com/jacket/v3.785/25e469aa1848471b875e68cde6531bc5"
      = "http://example.com/jacket/" ∧
    (∀ (c : HTTPClient) (m : String), c.management_url = some m →
      c.csUrl Option.none = .url false (stripVersionUrl m) ∧
      (∀ p : String, ¬p.isEmpty = true →
        (c.service_catalog = Option.none ∨ c.bypass_url.isSome = true ∨
          c.getServiceUrl = m) →
        ∃ b, c.csUrl (some p) = .url b (m ++ p))) := by
  refine ⟨?_, by rfl, by rfl, by rfl, by rfl, ?_⟩
  · intro front v pid hfs hv hp hver
    have hsplit : splitSlash (joinSlash (front ++ [v, pid])) = front ++ [v, pid] := by
      apply splitSlash_joinSlash
      · simp
      · intro x hx
        rcases List.mem_append.mp hx with h | h
        · exact hfs x h
        · have hvp : x = v ∨ x = pid := by simpa using h
          rcases hvp with h | h
          · exact h ▸ hv
          · exact h ▸ hp
    unfold stripVersionChars
    rw [hsplit]
    rw [List.reverse_append]
    simp only [List.reverse_cons, List.reverse_nil, List.nil_append, List.cons_append,
      List.append_nil]
    simp only [hver, if_pos, List.reverse_reverse]
  · intro c m hm
    constructor
    · simp [HTTPClient.csUrl, hm]
    · intro p hp hroute
      simp only [HTTPClient.csUrl, hm, hp]
      by_cases hcat : c.service_catalog.isSome && c.bypass_url.isNone
      · rcases hroute with h | h | h
        · rw [h] at hcat
          simp at hcat
        · rw [Bool.and_eq_true] at hcat
          rw [Option.isSome_iff_ne_none] at h
          simp [Option.isNone_iff_eq_none] at hcat
          exact absurd hcat.2 h
        · exact ⟨true, by simp [hcat, hp, h]⟩
      · exact ⟨false, by simp [hcat, hp]⟩

/-- C5 witness: the general stripping statement applied to the segment
decomposition of `http://example.com/v3.785/proj`. -/
theorem claim_C5_witness :
    stripVersionChars (joinSlash
      (["http:".data, [], "example.com".data] ++ ["v3.785".data, "proj".data]))
      = joinSlash ["http:".data, [], "example.com".data] ++ ['/'] :=
  claim_C5_version_url.1 ["http:".data, [], "example.com".data]
    "v3.785".data "proj".data (by decide) (by decide) (by decide) (by decide)
